import Mathlib

/-!
Verification of the "24h wall" drawing engine: a shallow embedding of the
viewport transforms, stroke model, tile index, ink ledger, local buffer and
flush protocol, translated from the JavaScript sources, with theorems about
the specified properties.

Numbers: JavaScript numeric values (coordinates, timestamps in epoch ms, ink
amounts) are modelled as rationals; Math.floor is the integer floor on the
rationals. Math.sqrt is not exactly representable and is passed as an
uninterpreted function parameter where the source calls it (it only feeds the
ink cost of a segment, whose numeric value no claim depends on).
-/

namespace Config

/-- Configuration constant from src/config/firebase.config.js. -/
def TILE_SIZE : ℚ := 2000

/-- Configuration constant from src/config/firebase.config.js. -/
def MAX_INK : ℚ := 250000

/-- Configuration constant from src/config/firebase.config.js: 10000 / 3600
ink units per second. -/
def INK_REFILL_RATE : ℚ := 10000 / 3600

/-- Configuration constant from src/config/firebase.config.js: 24 hours in
milliseconds. -/
def FADE_DURATION : ℚ := 24 * 60 * 60 * 1000

end Config

namespace CanvasManager

/-! Embedding of src/src/canvas/CanvasManager.js (nested point arrays:
each point is a `[x, y, width]` triple). -/

/-- Viewport state of the CanvasManager constructor. -/
structure Viewport where
  x : ℚ
  y : ℚ
  zoom : ℚ
deriving DecidableEq

/-- Stroke record. JavaScript strokes are untagged objects; the freehand
variant carries `points`, the text variant carries `type: "text"`, `text`,
`position`, `fontSize`. We model the union as one record with an `isText`
tag standing for the `type === "text"` test. -/
structure Stroke where
  isText : Bool
  points : List (ℚ × ℚ × ℚ)
  text : String
  position : ℚ × ℚ
  fontSize : ℚ
  color : String
  timestamp : ℚ
  country : String
  inkUsed : ℚ
deriving DecidableEq

/-- Tile data as consumed by render: the code guards with
`if (!tileData.strokes) continue`, so the strokes field is optional. -/
structure TileData where
  strokes : Option (List Stroke)
deriving DecidableEq

/-- Drawing state of the CanvasManager. -/
structure State where
  viewport : Viewport
  tiles : List (String × TileData)
  isDrawing : Bool
  currentStroke : Option Stroke
  localStrokes : List Stroke
deriving DecidableEq

/-- screenToWorld from CanvasManager.js lines 47-52. -/
def screenToWorld (v : Viewport) (screenX screenY : ℚ) : ℚ × ℚ :=
  (v.x + screenX / v.zoom, v.y + screenY / v.zoom)

/-- worldToScreen from CanvasManager.js lines 55-60. -/
def worldToScreen (v : Viewport) (worldX worldY : ℚ) : ℚ × ℚ :=
  ((worldX - v.x) * v.zoom, (worldY - v.y) * v.zoom)

/-- endStroke from CanvasManager.js lines 124-130: push the current stroke
onto localStrokes when it has more than one point, then clear the drawing
state. -/
def endStroke (st : State) : State :=
  let pushed :=
    match st.currentStroke with
    | some s => if 1 < s.points.length then st.localStrokes ++ [s] else st.localStrokes
    | none => st.localStrokes
  { st with localStrokes := pushed, isDrawing := false, currentStroke := none }

/-- continueStroke from CanvasManager.js lines 102-121. The guard
`if (!this.isDrawing || !this.currentStroke) return 0` leaves everything
untouched. `sqrtFn` stands for Math.sqrt. -/
def continueStroke (sqrtFn : ℚ → ℚ) (st : State) (worldX worldY width : ℚ) :
    ℚ × State :=
  if ¬ st.isDrawing then (0, st) else
  match st.currentStroke with
  | none => (0, st)
  | some s =>
      let lastPoint := s.points.getD (s.points.length - 1) (0, 0, 0)
      let dx := worldX - lastPoint.1
      let dy := worldY - lastPoint.2.1
      let distance := sqrtFn (dx * dx + dy * dy)
      let avgWidth := (width + lastPoint.2.2) / 2
      let inkCost := distance * avgWidth
      let s2 := { s with points := s.points ++ [(worldX, worldY, width)],
                         inkUsed := s.inkUsed + inkCost }
      (inkCost, { st with currentStroke := some s2 })

/-- Opacity computation from renderStroke, CanvasManager.js lines 225-226:
`Math.max(0, 1 - age / FADE_DURATION)`. -/
def opacity (timestamp now : ℚ) : ℚ :=
  max 0 (1 - (now - timestamp) / Config.FADE_DURATION)

/-- Whether renderStroke draws the stroke (lines 223-267): it returns early
when the opacity is not positive, and a non-text stroke with fewer than two
points is also skipped. -/
def renderStrokeDraws (s : Stroke) (now : ℚ) : Bool :=
  if opacity s.timestamp now ≤ 0 then false
  else if s.isText then true
  else if s.points.length < 2 then false
  else true

/-- render from CanvasManager.js lines 195-220: draws tile strokes, then
local strokes, then the current stroke; it reads but never mutates the
state, which we record by returning the state unchanged alongside the list
of strokes actually drawn. -/
def render (st : State) (now : ℚ) : List Stroke × State :=
  let fromTiles := st.tiles.flatMap fun t =>
    match t.2.strokes with
    | none => []
    | some l => l.filter fun s => renderStrokeDraws s now
  let fromLocal := st.localStrokes.filter fun s => renderStrokeDraws s now
  let fromCurrent :=
    match st.currentStroke with
    | some c => if renderStrokeDraws c now then [c] else []
    | none => []
  (fromTiles ++ fromLocal ++ fromCurrent, st)

end CanvasManager

namespace FirebaseService

/-! Embedding of the firebase service module (src/unnamed/part_002):
tile ids, tile bounds, the ink ledger arithmetic of saveStrokes,
initUserInk, calculateCurrentInk and updateUserRefillTime. -/

/-- Decimal digit characters of a natural number, most significant first,
as produced by the JavaScript number-to-string conversion for integers
(`${n}` in a template literal). -/
def natChars (n : ℕ) : List Char :=
  if n = 0 then ['0'] else (Nat.digits 10 n).reverse.map Nat.digitChar

/-- Characters of an integer in the JavaScript decimal notation: an optional
leading minus sign followed by the digits. -/
def intChars (n : ℤ) : List Char :=
  if n < 0 then '-' :: natChars n.natAbs else natChars n.natAbs

/-- getTileId from part_002 lines 30-34:
`tile_${Math.floor(x / tileSize)}_${Math.floor(y / tileSize)}`. -/
def getTileId (x y tileSize : ℚ) : String :=
  { data := ['t', 'i', 'l', 'e', '_'] ++ intChars ⌊x / tileSize⌋
      ++ '_' :: intChars ⌊y / tileSize⌋ }

/-- Numeric value of a decimal digit character, as used when parsing the
captures of the tile-id pattern. -/
def charToDigit (c : Char) : Option ℕ :=
  if '0' ≤ c ∧ c ≤ '9' then some (c.toNat - 48) else none

/-- Parse a nonempty all-digit character list as a natural number. -/
def parseNatChars (cs : List Char) : Option ℕ :=
  match cs.mapM charToDigit with
  | none => none
  | some ds => if ds = [] then none else some (Nat.ofDigits 10 ds.reverse)

/-- Parse the decimal notation of an integer (model of parseInt applied to a
capture of the pattern `-?\d+`): a leading minus sign negates the parsed
digits, otherwise all characters must be digits. -/
def parseIntChars (cs : List Char) : Option ℤ :=
  if cs.headD ' ' = '-' then
    (parseNatChars cs.tail).map (fun m : ℕ => -(m : ℤ))
  else
    (parseNatChars cs).map (fun m : ℕ => (m : ℤ))

/-- Split a character list on a separator character; the model of breaking
the id string at its underscores. -/
def splitOnChar (sep : Char) : List Char → List (List Char)
  | [] => [[]]
  | c :: cs =>
      let r := splitOnChar sep cs
      if c = sep then [] :: r else (c :: r.headD []) :: r.tail

/-- Model of the regex match `tileId.match(/tile_(-?\d+)_(-?\d+)/)` in
getTileBounds, part_002 lines 82-96: the id must read `tile`, one integer,
one integer, separated by underscores; otherwise the id is malformed and the
match is null. -/
def parseTileId (s : String) : Option (ℤ × ℤ) :=
  match splitOnChar '_' s.data with
  | [t, a, b] =>
      if t = ['t', 'i', 'l', 'e'] then
        match parseIntChars a, parseIntChars b with
        | some tx, some ty => some (tx, ty)
        | _, _ => none
      else none
  | _ => none

/-- Tile bounds record, part_002 lines 90-95. -/
structure Bounds where
  minX : ℚ
  minY : ℚ
  maxX : ℚ
  maxY : ℚ
deriving DecidableEq

/-- Bounds of the tile with grid coordinates (tx, ty) at tile size 2000, as
recomputed by getTileBounds from the parsed id. -/
def boundsOfTile (tx ty : ℤ) : Bounds :=
  ⟨tx * 2000, ty * 2000, (tx + 1) * 2000, (ty + 1) * 2000⟩

/-- getTileBounds from part_002 lines 82-96: parse the id (null on a
malformed id) and rebuild the bounds purely from the parsed grid
coordinates with the hardcoded tile size 2000. -/
def getTileBounds (tileId : String) : Option Bounds :=
  match parseTileId tileId with
  | none => none
  | some (tx, ty) => some (boundsOfTile tx ty)

/-- Containment of a world point in tile bounds. The tiling is the floor
partition, so containment is inclusive at min and exclusive at max; this is
the notion under which the tiles partition the plane. -/
def containsPoint (b : Bounds) (x y : ℚ) : Prop :=
  b.minX ≤ x ∧ x < b.maxX ∧ b.minY ≤ y ∧ y < b.maxY

/-- User ink account document. The stored shape is
`{ inkRemaining, lastRefill, country, createdAt }`; on flush, saveStrokes
additionally writes a lastActivity timestamp. Timestamps are epoch
milliseconds. -/
structure UserDoc where
  inkRemaining : ℚ
  lastRefill : ℚ
  lastActivity : ℚ
deriving DecidableEq

/-- calculateCurrentInk from part_002 lines 175-180: seconds elapsed since
lastRefill times the refill rate, floored, added to the stored ink, clamped
at 250000. The code reads Date.now(); the instant is the `now` argument
here. -/
def calculateCurrentInk (u : UserDoc) (refillRate now : ℚ) : ℚ :=
  let timeSinceRefill := (now - u.lastRefill) / 1000
  let refilled : ℤ := ⌊timeSinceRefill * refillRate⌋
  min 250000 (u.inkRemaining + refilled)

/-- User-account update performed by saveStrokes (part_002 lines 127-137) on
a successful flush: the new inkRemaining is the raw stored inkRemaining read
back from the document minus the flushed total, and lastActivity is set to
now. lastRefill is not touched here. -/
def saveStrokesUserUpdate (u : UserDoc) (totalInkUsed now : ℚ) : UserDoc :=
  { u with inkRemaining := u.inkRemaining - totalInkUsed, lastActivity := now }

/-- updateUserRefillTime from part_002 lines 183-196: set lastRefill to
now. -/
def updateUserRefillTime (u : UserDoc) (now : ℚ) : UserDoc :=
  { u with lastRefill := now }

/-- Combined account effect of one successful flush, as sequenced by
flushStrokes in main.js lines 1442-1450: saveStrokes debits the account,
then updateUserRefillTime resets the refill baseline. -/
def flushCommit (u : UserDoc) (totalInkUsed now : ℚ) : UserDoc :=
  updateUserRefillTime (saveStrokesUserUpdate u totalInkUsed now) now

end FirebaseService

namespace CanvasManagerV2

/-! Embedding of the CanvasManager in src/unnamed/part_001 (first document):
points are kept in one flat array `[x1, y1, w1, x2, y2, w2, ...]`, and
endStroke consults the application-level currentStrokeWasFlushed flag to
avoid re-enqueuing a stroke that a mid-draw flush already persisted. -/

/-- Stroke record with the flat points array. Text strokes carry
`type: "text"`, `text`, `position`, `fontSize`, `fontFamily`; the untagged
JavaScript union is modelled as one record with an isText tag. -/
structure Stroke where
  isText : Bool
  points : List ℚ
  text : String
  position : ℚ × ℚ
  fontSize : ℚ
  fontFamily : String
  color : String
  timestamp : ℚ
  country : String
  inkUsed : ℚ
deriving DecidableEq

/-- Remote tile document shape `{ bounds, strokes, lastUpdated }` as cached
by the canvas manager. -/
structure TileData where
  bounds : Option FirebaseService.Bounds
  strokes : Option (List Stroke)
  lastUpdated : ℚ
deriving DecidableEq

/-- Canvas state: viewport, loaded-tiles cache, drawing state and the local
stroke buffer. -/
structure State where
  viewport : CanvasManager.Viewport
  tiles : List (String × TileData)
  isDrawing : Bool
  currentStroke : Option Stroke
  localStrokes : List Stroke
deriving DecidableEq

/-- startStroke from part_001 lines 90-99: begin a freehand stroke with one
sample and zero ink used. `now` is the Date.now() read for the timestamp. -/
def startStroke (st : State) (worldX worldY width : ℚ) (color country : String)
    (now : ℚ) : State :=
  { st with
    isDrawing := true,
    currentStroke := some
      { isText := false, points := [worldX, worldY, width], text := "",
        position := (0, 0), fontSize := 0, fontFamily := "", color := color,
        timestamp := now, country := country, inkUsed := 0 } }

/-- continueStroke from part_001 lines 102-129. The guard
`if (!this.isDrawing || !this.currentStroke) return 0` leaves the state
untouched; otherwise the new sample is appended and the segment cost
(distance times average width) is added to inkUsed. `sqrtFn` stands for
Math.sqrt. -/
def continueStroke (sqrtFn : ℚ → ℚ) (st : State) (worldX worldY width : ℚ) :
    ℚ × State :=
  if ¬ st.isDrawing then (0, st) else
  match st.currentStroke with
  | none => (0, st)
  | some s =>
      let len := s.points.length
      let lastX := s.points.getD (len - 3) 0
      let lastY := s.points.getD (len - 2) 0
      let lastWidth := s.points.getD (len - 1) 0
      let dx := worldX - lastX
      let dy := worldY - lastY
      let distance := sqrtFn (dx * dx + dy * dy)
      let avgWidth := (width + lastWidth) / 2
      let inkCost := distance * avgWidth
      let s2 := { s with points := s.points ++ [worldX, worldY, width],
                         inkUsed := s.inkUsed + inkCost }
      (inkCost, { st with currentStroke := some s2 })

/-- endStroke from part_001 lines 132-150: when there is a current stroke
with more than 3 flat entries (at least two samples), it is pushed onto
localStrokes unless the currentStrokeWasFlushed flag is set; the drawing
state is cleared and the flag is reset for the next stroke. Returns the new
canvas state and the new flag value. -/
def endStroke (st : State) (currentStrokeWasFlushed : Bool) : State × Bool :=
  let pushed :=
    match st.currentStroke with
    | some s =>
        if 3 < s.points.length then
          if ¬ currentStrokeWasFlushed then st.localStrokes ++ [s]
          else st.localStrokes
        else st.localStrokes
    | none => st.localStrokes
  ({ st with localStrokes := pushed, isDrawing := false, currentStroke := none },
   false)

end CanvasManagerV2

namespace MainApp

/-! Embedding of the application layer in src/src/main.js (second document,
lines 483-1499): tool state, the mouse handlers around the canvas manager,
and the flushStrokes protocol. Timers (resetInactivityTimer) and DOM and
gauge updates have no effect on the modelled state and are omitted; the
inline-text subsystem (measureText, blinking cursor) is outside the model,
so handlers are modelled on states with no text entry in progress. -/

/-- Current tool selection. -/
inductive Tool
  | brush
  | text
  | eraser
deriving DecidableEq

/-- Application state fields referenced by the modelled handlers. userInk is
the locally cached ink document (null before initialisation). -/
structure AppState where
  cm : CanvasManagerV2.State
  currentTool : Tool
  currentColor : String
  currentWidth : ℚ
  userCountry : String
  userIpHash : String
  userInk : Option FirebaseService.UserDoc
  isPanning : Bool
  lastMousePos : ℚ × ℚ
  currentStrokeWasFlushed : Bool
deriving DecidableEq

/-- handleMouseDown from main.js lines 955-991, drawing branches.
`panModifier` is `e.button === 1 || e.ctrlKey || e.metaKey`. With the brush
or eraser tool a stroke is started unconditionally: the handler performs no
ink check of any kind. The text tool only starts inline typing and creates
no stroke at mousedown. -/
def handleMouseDown (st : AppState) (panModifier : Bool)
    (clientX clientY screenX screenY now : ℚ) : AppState :=
  if panModifier then
    { st with isPanning := true, lastMousePos := (clientX, clientY) }
  else if st.currentTool = Tool.brush ∨ st.currentTool = Tool.eraser then
    let worldPos := CanvasManager.screenToWorld st.cm.viewport screenX screenY
    let drawColor := if st.currentTool = Tool.eraser then "#FFFFFF"
                     else st.currentColor
    let cm2 := CanvasManagerV2.startStroke st.cm worldPos.1 worldPos.2
      st.currentWidth drawColor st.userCountry now
    { st with cm := cm2 }
  else
    st

/-- pan from part_001 lines 63-67. -/
def pan (v : CanvasManager.Viewport) (dx dy : ℚ) : CanvasManager.Viewport :=
  { v with x := v.x - dx / v.zoom, y := v.y - dy / v.zoom }

/-- handleMouseMove from main.js lines 994-1017: pan when panning; while
drawing, continue the stroke and deduct the returned ink cost from the
cached account unless the eraser tool is active (the eraser costs no
ink). -/
def handleMouseMove (sqrtFn : ℚ → ℚ) (st : AppState)
    (clientX clientY screenX screenY : ℚ) : AppState :=
  if st.isPanning then
    let dx := clientX - st.lastMousePos.1
    let dy := clientY - st.lastMousePos.2
    { st with cm := { st.cm with viewport := pan st.cm.viewport dx dy },
              lastMousePos := (clientX, clientY) }
  else if st.cm.isDrawing then
    let worldPos := CanvasManager.screenToWorld st.cm.viewport screenX screenY
    let r := CanvasManagerV2.continueStroke sqrtFn st.cm worldPos.1 worldPos.2
      st.currentWidth
    let st2 := { st with cm := r.2 }
    if st.currentTool ≠ Tool.eraser then
      match st.userInk with
      | some u =>
          let u2 := { u with inkRemaining := u.inkRemaining - r.1 }
          { st2 with userInk := some u2 }
      | none => st2
    else st2
  else
    st

/-- Anchor tile id of a stroke as computed in flushStrokes, main.js lines
1421-1429: the position for a text stroke, the first flat point for a
freehand stroke. -/
def anchorTileId (s : CanvasManagerV2.Stroke) : String :=
  if s.isText then
    FirebaseService.getTileId s.position.1 s.position.2 Config.TILE_SIZE
  else
    FirebaseService.getTileId (s.points.getD 0 0) (s.points.getD 1 0)
      Config.TILE_SIZE

/-- Append a stroke to its group in an association list, preserving first
insertion order of the keys, as iterating `strokesByTile[tileId].push`
does. -/
def insertGrouped (acc : List (String × List CanvasManagerV2.Stroke))
    (key : String) (s : CanvasManagerV2.Stroke) :
    List (String × List CanvasManagerV2.Stroke) :=
  match acc with
  | [] => [(key, [s])]
  | (k, l) :: rest =>
      if k = key then (k, l ++ [s]) :: rest
      else (k, l) :: insertGrouped rest key s

/-- Grouping of the buffered strokes by target tile id, main.js lines
1419-1436. -/
def groupByTile (strokes : List CanvasManagerV2.Stroke) :
    List (String × List CanvasManagerV2.Stroke) :=
  strokes.foldl (fun acc s => insertGrouped acc (anchorTileId s) s) []

/-- Save request handed to the remote adapter:
`saveStrokes(strokesByTile, userIpHash, totalInk)`. -/
structure SaveRequest where
  strokesByTile : List (String × List CanvasManagerV2.Stroke)
  userIpHash : String
  totalInkUsed : ℚ
deriving DecidableEq

/-- flushStrokes from main.js lines 1376-1451. The remote save is
asynchronous and fallible; its reported outcome is the `saveResult`
parameter, and `isConfigured` is the backend-availability flag. Returns the
new application state together with the save request issued, if any.

Mid-draw special case (lines 1381-1411): when a stroke is in progress, a
snapshot of it is saved alone to its anchor tile; on success only the
currentStrokeWasFlushed flag is set — the local buffer is never touched and
drawing continues. Normal case (lines 1413-1451): an empty buffer returns
early; otherwise the buffer is grouped by tile and saved with its total ink;
on success the buffer is cleared (the remote account update is modelled by
FirebaseService.flushCommit), on failure the buffer is left as is for the
next scheduled flush. This definition is the normal-case body; the dispatch
is flushStrokes below. -/
def flushNormal (st : AppState) (saveResult : Bool) :
    AppState × Option SaveRequest :=
  let byTile := groupByTile st.cm.localStrokes
  let total := (st.cm.localStrokes.map (fun s => s.inkUsed)).sum
  let req : SaveRequest := ⟨byTile, st.userIpHash, total⟩
  if saveResult then
    ({ st with cm := { st.cm with localStrokes := [] } }, some req)
  else (st, some req)

/-- flushStrokes dispatch: the unconfigured early return, the mid-draw
special case, the empty-buffer early return, and the normal case above. -/
def flushStrokes (isConfigured : Bool) (st : AppState) (saveResult : Bool) :
    AppState × Option SaveRequest :=
  if ¬ isConfigured then (st, none)
  else if st.cm.isDrawing then
    match st.cm.currentStroke with
    | some s =>
        let strokeToSave := s
        let tileId := FirebaseService.getTileId (s.points.getD 0 0)
          (s.points.getD 1 0) Config.TILE_SIZE
        let req : SaveRequest :=
          ⟨[(tileId, [strokeToSave])], st.userIpHash, s.inkUsed⟩
        (if saveResult then { st with currentStrokeWasFlushed := true } else st,
         some req)
    | none =>
        if st.cm.localStrokes = [] then (st, none)
        else flushNormal st saveResult
  else
    if st.cm.localStrokes = [] then (st, none)
    else flushNormal st saveResult

end MainApp

namespace Samples

/-! Concrete data used by the witness theorems. -/

/-- Concrete freehand stroke with two samples (nested representation). -/
def strokeNested : CanvasManager.Stroke :=
  { isText := false, points := [(0, 0, 5), (1, 1, 5)], text := "",
    position := (0, 0), fontSize := 0, color := "#000000", timestamp := 0,
    country := "XX", inkUsed := 0 }

/-- Concrete canvas state (nested representation) with a stroke in
progress. -/
def stateNested : CanvasManager.State :=
  { viewport := ⟨0, 0, 1⟩, tiles := [], isDrawing := true,
    currentStroke := some strokeNested, localStrokes := [] }

/-- Concrete freehand stroke with two samples (flat representation). -/
def strokeFlat : CanvasManagerV2.Stroke :=
  { isText := false, points := [0, 0, 5, 1, 1, 5], text := "",
    position := (0, 0), fontSize := 0, fontFamily := "", color := "#000000",
    timestamp := 0, country := "XX", inkUsed := 7 }

/-- Concrete canvas state (flat representation) with a stroke in
progress. -/
def stateFlat : CanvasManagerV2.State :=
  { viewport := ⟨0, 0, 1⟩, tiles := [], isDrawing := true,
    currentStroke := some strokeFlat, localStrokes := [] }

/-- Concrete canvas state (flat representation) with no stroke in
progress. -/
def stateFlatIdle : CanvasManagerV2.State :=
  { viewport := ⟨0, 0, 1⟩, tiles := [], isDrawing := false,
    currentStroke := none, localStrokes := [] }

/-- Concrete application state with the brush tool, a drained ink account
and a stroke in progress. -/
def appDrawing : MainApp.AppState :=
  { cm := stateFlat, currentTool := MainApp.Tool.brush,
    currentColor := "#000000", currentWidth := 10, userCountry := "XX",
    userIpHash := "u", userInk := some ⟨0, 0, 0⟩, isPanning := false,
    lastMousePos := (0, 0), currentStrokeWasFlushed := false }

/-- Concrete application state with the brush tool, a drained ink account
and no stroke in progress. -/
def appIdle : MainApp.AppState :=
  { appDrawing with cm := stateFlatIdle }

/-- Concrete application state with the eraser tool while drawing. -/
def appErasing : MainApp.AppState :=
  { appDrawing with currentTool := MainApp.Tool.eraser }

end Samples

namespace FirebaseService

/-! Round-trip lemmas: the decimal serialization used by getTileId and the
parse used by getTileBounds are mutually inverse. -/

theorem charToDigit_digitChar {d : ℕ} (h : d < 10) :
    charToDigit (Nat.digitChar d) = some d := by
  interval_cases d <;> decide

theorem digitChar_ne_underscore {d : ℕ} (h : d < 10) :
    Nat.digitChar d ≠ '_' := by
  interval_cases d <;> decide

theorem digitChar_ne_minus {d : ℕ} (h : d < 10) :
    Nat.digitChar d ≠ '-' := by
  interval_cases d <;> decide

theorem mem_natChars {n : ℕ} {c : Char} (h : c ∈ natChars n) :
    ∃ d, d < 10 ∧ c = Nat.digitChar d := by
  unfold natChars at h
  split at h
  · simp at h
    exact ⟨0, by norm_num, h⟩
  · rw [List.mem_map] at h
    obtain ⟨d, hd, rfl⟩ := h
    exact ⟨d, Nat.digits_lt_base (by norm_num) (List.mem_reverse.mp hd), rfl⟩

theorem natChars_ne_nil (n : ℕ) : natChars n ≠ [] := by
  unfold natChars
  split
  · simp
  · simp_all [Nat.digits_ne_nil_iff_ne_zero]

theorem mapM_charToDigit_map (ds : List ℕ) (h : ∀ d ∈ ds, d < 10) :
    (ds.map Nat.digitChar).mapM charToDigit = some ds := by
  induction ds with
  | nil => rfl
  | cons d rest ih =>
      rw [List.map_cons, List.mapM_cons]
      rw [charToDigit_digitChar (h d (by simp))]
      rw [ih (fun x hx => h x (by simp [hx]))]
      rfl

theorem parseNatChars_natChars (n : ℕ) :
    parseNatChars (natChars n) = some n := by
  by_cases h0 : n = 0
  · subst h0
    decide
  · unfold natChars parseNatChars
    rw [if_neg h0]
    rw [mapM_charToDigit_map _
      (fun d hd => Nat.digits_lt_base (by norm_num) (List.mem_reverse.mp hd))]
    simp [List.reverse_reverse, Nat.ofDigits_digits,
      Nat.digits_ne_nil_iff_ne_zero, h0]

theorem parseIntChars_intChars (n : ℤ) :
    parseIntChars (intChars n) = some n := by
  unfold intChars
  split
  · next h =>
      have e : parseIntChars ('-' :: natChars n.natAbs)
          = (parseNatChars (natChars n.natAbs)).map (fun m : ℕ => -(m : ℤ)) :=
        rfl
      rw [e, parseNatChars_natChars]
      simp only [Option.map_some']
      congr 1
      omega
  · next h =>
      obtain ⟨c, rest, hcr⟩ : ∃ c rest, natChars n.natAbs = c :: rest := by
        cases hh : natChars n.natAbs with
        | nil => exact absurd hh (natChars_ne_nil _)
        | cons c rest => exact ⟨c, rest, rfl⟩
      have hc : c ≠ '-' := by
        have hmem : c ∈ natChars n.natAbs := by
          rw [hcr]; exact List.mem_cons_self _ _
        obtain ⟨d, hd, he⟩ := mem_natChars hmem
        rw [he]
        exact digitChar_ne_minus hd
      unfold parseIntChars
      rw [hcr]
      rw [show ((c :: rest).headD ' ') = c from rfl]
      rw [if_neg hc, ← hcr, parseNatChars_natChars]
      simp only [Option.map_some']
      congr 1
      omega

theorem underscore_not_mem_natChars (n : ℕ) : '_' ∉ natChars n := by
  intro h
  obtain ⟨d, hd, he⟩ := mem_natChars h
  exact digitChar_ne_underscore hd he.symm

theorem underscore_not_mem_intChars (n : ℤ) : '_' ∉ intChars n := by
  intro h
  unfold intChars at h
  split at h
  · rcases List.mem_cons.mp h with h1 | h1
    · exact absurd h1 (by decide)
    · exact underscore_not_mem_natChars _ h1
  · exact underscore_not_mem_natChars _ h

theorem splitOnChar_cons (sep c : Char) (l : List Char) :
    splitOnChar sep (c :: l)
      = if c = sep then [] :: splitOnChar sep l
        else (c :: (splitOnChar sep l).headD []) :: (splitOnChar sep l).tail :=
  rfl

theorem splitOnChar_not_mem {sep : Char} {xs : List Char} (h : sep ∉ xs) :
    splitOnChar sep xs = [xs] := by
  induction xs with
  | nil => rfl
  | cons c cs ih =>
      rw [splitOnChar_cons]
      rw [if_neg (fun hc => h (by simp [hc]))]
      rw [ih (fun hm => h (by simp [hm]))]
      all_goals rfl

theorem splitOnChar_append {sep : Char} {xs : List Char} (h : sep ∉ xs)
    (ys : List Char) :
    splitOnChar sep (xs ++ sep :: ys) = xs :: splitOnChar sep ys := by
  induction xs with
  | nil =>
      rw [List.nil_append, splitOnChar_cons, if_pos rfl]
      all_goals rfl
  | cons c cs ih =>
      rw [List.cons_append, splitOnChar_cons]
      rw [if_neg (fun hc => h (by simp [hc]))]
      rw [ih (fun hm => h (by simp [hm]))]
      all_goals rfl

theorem parseTileId_getTileId (x y : ℚ) :
    parseTileId (getTileId x y 2000) = some (⌊x / 2000⌋, ⌊y / 2000⌋) := by
  unfold parseTileId getTileId
  have hdata :
      (({ data := ['t', 'i', 'l', 'e', '_'] ++ intChars ⌊x / 2000⌋
          ++ '_' :: intChars ⌊y / 2000⌋ } : String)).data
        = ['t', 'i', 'l', 'e']
          ++ '_' :: (intChars ⌊x / 2000⌋ ++ '_' :: intChars ⌊y / 2000⌋) := rfl
  rw [hdata]
  rw [splitOnChar_append (by decide)]
  rw [splitOnChar_append (underscore_not_mem_intChars _)]
  rw [splitOnChar_not_mem (underscore_not_mem_intChars _)]
  show (if (['t', 'i', 'l', 'e'] : List Char) = ['t', 'i', 'l', 'e'] then
      match parseIntChars (intChars ⌊x / 2000⌋),
          parseIntChars (intChars ⌊y / 2000⌋) with
      | some tx, some ty => some (tx, ty)
      | _, _ => none
    else none) = some (⌊x / 2000⌋, ⌊y / 2000⌋)
  rw [if_pos rfl, parseIntChars_intChars, parseIntChars_intChars]

theorem floor_div_eq_of_bounds {t : ℤ} {x : ℚ}
    (h1 : (t : ℚ) * 2000 ≤ x) (h2 : x < ((t : ℚ) + 1) * 2000) :
    ⌊x / 2000⌋ = t := by
  rw [Int.floor_eq_iff]
  constructor
  · rw [le_div_iff₀ (by norm_num)]
    exact h1
  · rw [div_lt_iff₀ (by norm_num)]
    push_cast
    linarith

end FirebaseService

/-! Claim theorems. -/

/-- C9: for every point p and every viewport whose zoom lies in the observed
range [0.1, 5] (hence is nonzero), screenToWorld inverts worldToScreen
exactly in rational arithmetic. -/
theorem screenToWorld_worldToScreen_inverse (v : CanvasManager.Viewport)
    (p : ℚ × ℚ) (h1 : 1 / 10 ≤ v.zoom) (h2 : v.zoom ≤ 5) :
    CanvasManager.screenToWorld v (CanvasManager.worldToScreen v p.1 p.2).1
      (CanvasManager.worldToScreen v p.1 p.2).2 = p := by
  have hz : v.zoom ≠ 0 := by
    intro h0
    rw [h0] at h1
    norm_num at h1
  unfold CanvasManager.screenToWorld CanvasManager.worldToScreen
  obtain ⟨a, b⟩ := p
  simp only [Prod.mk.injEq]
  constructor <;> field_simp

/-- Witness for C9 at viewport (0, 0, zoom 1) and p = (3, 4). -/
theorem screenToWorld_worldToScreen_inverse_witness :
    ((1 : ℚ) / 10 ≤ (1 : ℚ) ∧ (1 : ℚ) ≤ 5)
    ∧ CanvasManager.screenToWorld ⟨0, 0, 1⟩
        (CanvasManager.worldToScreen ⟨0, 0, 1⟩ 3 4).1
        (CanvasManager.worldToScreen ⟨0, 0, 1⟩ 3 4).2 = ((3 : ℚ), (4 : ℚ)) :=
  ⟨⟨by norm_num, by norm_num⟩,
   screenToWorld_worldToScreen_inverse ⟨0, 0, 1⟩ (3, 4) (by norm_num) (by norm_num)⟩

/-- C5 amended: for every stroke timestamp and every instant now ≥
timestamp, the rendering opacity max(0, 1 - age / FADE_DURATION) equals the
clamp of 1 - age / FADE_DURATION to [0, 1]; it is 1 at the creation instant,
0 from timestamp + FADE_DURATION on, strictly decreasing in between; and a
stroke whose opacity is ≤ 0 is skipped by render without the state (hence
the in-memory stroke lists) being touched. The restriction now ≥ timestamp
is forced: the code applies no upper clamp at 1, so at an instant before the
timestamp (possible only for a stroke loaded from the remote store with a
future timestamp) the computed opacity exceeds 1 and differs from the
clamp — see the counterexample below. -/
theorem opacity_clamp_fade (ts now : ℚ) (h : ts ≤ now) :
    CanvasManager.opacity ts ts = 1
    ∧ (ts + Config.FADE_DURATION ≤ now → CanvasManager.opacity ts now = 0)
    ∧ (∀ n1 n2 : ℚ, ts ≤ n1 → n1 < n2 → n2 ≤ ts + Config.FADE_DURATION →
        CanvasManager.opacity ts n2 < CanvasManager.opacity ts n1)
    ∧ CanvasManager.opacity ts now
        = max 0 (min 1 (1 - (now - ts) / Config.FADE_DURATION))
    ∧ (∀ (st : CanvasManager.State) (s : CanvasManager.Stroke),
        CanvasManager.opacity s.timestamp now ≤ 0 →
          s ∉ (CanvasManager.render st now).1
          ∧ (CanvasManager.render st now).2 = st) := by
  refine ⟨?_, ?_, ?_, ?_, ?_⟩
  · unfold CanvasManager.opacity Config.FADE_DURATION
    norm_num
  · intro hf
    unfold CanvasManager.opacity Config.FADE_DURATION at *
    have hd : (1 : ℚ) ≤ (now - ts) / 86400000 := by
      rw [le_div_iff₀ (by norm_num)]
      linarith
    rw [max_eq_left (by linarith)]
  · intro n1 n2 h1 h2 h3
    unfold CanvasManager.opacity Config.FADE_DURATION at *
    rw [show (24 * 60 * 60 * 1000 : ℚ) = 86400000 from by norm_num] at h3 ⊢
    have hv1 : 0 < 1 - (n1 - ts) / 86400000 := by
      have : (n1 - ts) / 86400000 < 1 := by
        rw [div_lt_one (by norm_num)]
        linarith
      linarith
    rw [max_eq_right (le_of_lt hv1)]
    apply max_lt hv1
    have hlt : (n1 - ts) / 86400000 < (n2 - ts) / 86400000 := by
      gcongr
      all_goals linarith
    linarith
  · unfold CanvasManager.opacity Config.FADE_DURATION at *
    rw [min_eq_right ?_]
    have : (0 : ℚ) ≤ (now - ts) / 86400000 := by
      apply div_nonneg (by linarith) (by norm_num)
    linarith
  · intro st s hle
    have hfalse : CanvasManager.renderStrokeDraws s now = false := by
      unfold CanvasManager.renderStrokeDraws
      rw [if_pos hle]
    constructor
    · intro hmem
      simp only [CanvasManager.render, List.mem_append] at hmem
      rcases hmem with (hm | hm) | hm
      · rw [List.mem_flatMap] at hm
        obtain ⟨t, _, hs⟩ := hm
        cases hst : t.2.strokes with
        | none => rw [hst] at hs; simp at hs
        | some l =>
            rw [hst] at hs
            have := (List.mem_filter.mp hs).2
            rw [hfalse] at this
            exact absurd this (by simp)
      · have := (List.mem_filter.mp hm).2
        rw [hfalse] at this
        exact absurd this (by simp)
      · cases hcs : st.currentStroke with
        | none => rw [hcs] at hm; simp at hm
        | some c =>
            rw [hcs] at hm
            have hm2 : s ∈ (if CanvasManager.renderStrokeDraws c now = true
                then [c] else []) := hm
            by_cases hd : CanvasManager.renderStrokeDraws c now = true
            · rw [if_pos hd] at hm2
              rw [List.mem_singleton] at hm2
              rw [hm2] at hfalse
              rw [hfalse] at hd
              exact absurd hd (by simp)
            · rw [if_neg hd] at hm2
              simp at hm2
    · rfl

/-- Witness for C5 at timestamp 0, instant 0. -/
theorem opacity_clamp_fade_witness :
    (0 : ℚ) ≤ 0 ∧ CanvasManager.opacity 0 0 = 1 :=
  ⟨le_refl 0, (opacity_clamp_fade 0 0 (le_refl 0)).1⟩

/-- C5 as universally stated ("every instant now") is falsified by the
missing upper clamp: for a stroke stamped one fade-duration in the future
rendered at instant 0, the code computes opacity 2 while the claimed clamp
formula gives 1. -/
theorem opacity_clamp_fade_counterexample :
    CanvasManager.opacity 86400000 0
      ≠ max 0 (min 1 (1 - ((0 : ℚ) - 86400000) / Config.FADE_DURATION)) := by
  unfold CanvasManager.opacity Config.FADE_DURATION
  rw [show (1 - ((0 : ℚ) - 86400000) / (24 * 60 * 60 * 1000)) = 2 from by
    norm_num]
  rw [show max (0 : ℚ) 2 = 2 from by norm_num]
  rw [show min (1 : ℚ) 2 = 1 from by norm_num]
  norm_num

/-- C8: ending an in-progress freehand stroke discards it when it has fewer
than two samples and appends it to the local buffer otherwise; in both cases
the drawing flag is cleared and no in-progress stroke remains. Stated for
both embeddings: the nested-points endStroke of CanvasManager.js (point
count is the list length) and the flat-points endStroke of part_001 (a
stroke of k samples has 3k flat entries; a stroke not flushed mid-draw is
considered). -/
theorem endStroke_discards_short_appends_valid :
    (∀ (st : CanvasManager.State) (s : CanvasManager.Stroke),
      st.currentStroke = some s →
        (s.points.length < 2 →
          (CanvasManager.endStroke st).localStrokes = st.localStrokes)
        ∧ (2 ≤ s.points.length →
          (CanvasManager.endStroke st).localStrokes = st.localStrokes ++ [s])
        ∧ (CanvasManager.endStroke st).isDrawing = false
        ∧ (CanvasManager.endStroke st).currentStroke = none)
    ∧ (∀ (st : CanvasManagerV2.State) (s : CanvasManagerV2.Stroke) (k : ℕ),
      st.currentStroke = some s → s.points.length = 3 * k →
        (k < 2 →
          ((CanvasManagerV2.endStroke st false).1).localStrokes
            = st.localStrokes)
        ∧ (2 ≤ k →
          ((CanvasManagerV2.endStroke st false).1).localStrokes
            = st.localStrokes ++ [s])
        ∧ ((CanvasManagerV2.endStroke st false).1).isDrawing = false
        ∧ ((CanvasManagerV2.endStroke st false).1).currentStroke = none) := by
  constructor
  · intro st s h
    refine ⟨?_, ?_, rfl, rfl⟩
    · intro hlen
      simp only [CanvasManager.endStroke, h]
      rw [if_neg (by omega)]
    · intro hlen
      simp only [CanvasManager.endStroke, h]
      rw [if_pos (by omega)]
  · intro st s k h hk
    refine ⟨?_, ?_, rfl, rfl⟩
    · intro hlen
      simp only [CanvasManagerV2.endStroke, h]
      rw [if_neg (by omega)]
    · intro hlen
      simp only [CanvasManagerV2.endStroke, h]
      rw [if_pos (by omega)]
      simp

/-- Witness for C8: a two-sample stroke is appended in both embeddings. -/
theorem endStroke_discards_short_appends_valid_witness :
    (Samples.stateNested.currentStroke = some Samples.strokeNested
      ∧ (CanvasManager.endStroke Samples.stateNested).localStrokes
          = [] ++ [Samples.strokeNested])
    ∧ (Samples.stateFlat.currentStroke = some Samples.strokeFlat
      ∧ ((CanvasManagerV2.endStroke Samples.stateFlat false).1).localStrokes
          = [] ++ [Samples.strokeFlat]) :=
  ⟨⟨rfl, (endStroke_discards_short_appends_valid.1 Samples.stateNested
      Samples.strokeNested rfl).2.1 (by decide)⟩,
   ⟨rfl, (endStroke_discards_short_appends_valid.2 Samples.stateFlat
      Samples.strokeFlat 2 rfl (by decide)).2.1 (by decide)⟩⟩

/-- C10: calling continueStroke while no stroke is in progress (isDrawing
false or currentStroke null) returns ink cost 0 and leaves the whole canvas
state — current stroke, local buffer, loaded tiles, viewport — exactly as it
was. Stated for both embeddings. -/
theorem continueStroke_noop_when_not_drawing :
    (∀ (sqrtFn : ℚ → ℚ) (st : CanvasManagerV2.State) (x y w : ℚ),
      st.isDrawing = false ∨ st.currentStroke = none →
        CanvasManagerV2.continueStroke sqrtFn st x y w = (0, st))
    ∧ (∀ (sqrtFn : ℚ → ℚ) (st : CanvasManager.State) (x y w : ℚ),
      st.isDrawing = false ∨ st.currentStroke = none →
        CanvasManager.continueStroke sqrtFn st x y w = (0, st)) := by
  constructor
  · intro sqrtFn st x y w hcase
    rcases hcase with h | h
    · simp [CanvasManagerV2.continueStroke, h]
    · by_cases hd : st.isDrawing = true
      · simp [CanvasManagerV2.continueStroke, h, hd]
      · simp [CanvasManagerV2.continueStroke, hd]
  · intro sqrtFn st x y w hcase
    rcases hcase with h | h
    · simp [CanvasManager.continueStroke, h]
    · by_cases hd : st.isDrawing = true
      · simp [CanvasManager.continueStroke, h, hd]
      · simp [CanvasManager.continueStroke, hd]

/-- Witness for C10 on the idle flat state. -/
theorem continueStroke_noop_when_not_drawing_witness :
    (Samples.stateFlatIdle.isDrawing = false
      ∨ Samples.stateFlatIdle.currentStroke = none)
    ∧ CanvasManagerV2.continueStroke (fun q => q) Samples.stateFlatIdle 1 2 3
        = (0, Samples.stateFlatIdle) :=
  ⟨Or.inl rfl, continueStroke_noop_when_not_drawing.1 (fun q => q)
    Samples.stateFlatIdle 1 2 3 (Or.inl rfl)⟩

/-- Helper: the clamp min M is 1-Lipschitz. -/
theorem abs_min_sub_min_le (M a b : ℚ) : |min M a - min M b| ≤ |a - b| := by
  have f1 := le_abs_self (a - b)
  have f2 := neg_abs_le (a - b)
  have f3 := abs_nonneg (a - b)
  rcases le_total M a with h1 | h1 <;> rcases le_total M b with h2 | h2
  · rw [min_eq_left h1, min_eq_left h2]
    simpa using f3
  · rw [min_eq_left h1, min_eq_right h2]
    rw [abs_le]
    constructor <;> linarith
  · rw [min_eq_right h1, min_eq_left h2]
    rw [abs_le]
    constructor <;> linarith
  · rw [min_eq_right h1, min_eq_right h2]

/-- Helper: clamping, adding a nonnegative refill and clamping again is the
same as clamping the sum once. -/
theorem min_min_add (M a y : ℚ) (hy : 0 ≤ y) :
    min M (min M a + y) = min M (a + y) := by
  rcases le_total a M with h | h
  · rw [min_eq_right h]
  · rw [min_eq_left h, min_eq_left (by linarith), min_eq_left (by linarith)]

/-- C2 as written is falsified by the Math.floor in calculateCurrentInk: at
an account with inkRemaining 0 and lastRefill 0, the effective ink computed
at t2 = 600 ms is 1 (the floored refill), while the composition formula
min(MAX, effective(t1) + rate * (t2 - t1)) at t1 = 300 ms gives 5/6. -/
theorem calculateCurrentInk_compose_counterexample :
    FirebaseService.calculateCurrentInk ⟨0, 0, 0⟩ (10000 / 3600) 600
      ≠ min 250000 (FirebaseService.calculateCurrentInk ⟨0, 0, 0⟩
          (10000 / 3600) 300 + (10000 / 3600) * ((600 - 300) / 1000)) := by
  have e1 : ((600 : ℚ) - 0) / 1000 * (10000 / 3600) = 5 / 3 := by norm_num
  have e2 : ((300 : ℚ) - 0) / 1000 * (10000 / 3600) = 5 / 6 := by norm_num
  have hf1 : ⌊(5 : ℚ) / 3⌋ = 1 := by
    rw [Int.floor_eq_iff] <;> norm_num
  have hf2 : ⌊(5 : ℚ) / 6⌋ = 0 := by
    rw [Int.floor_eq_iff] <;> norm_num
  simp only [FirebaseService.calculateCurrentInk]
  rw [e1, e2, hf1, hf2]
  norm_num

/-- C2 amended: the lazy refill is idempotent at a fixed instant — feeding
an effective value back through the composition formula with zero elapsed
time returns it unchanged — and it composes across time up to the one-unit
granularity of the Math.floor: for t1 ≤ t2 with no consumption and no
commit in between, effective(t2) differs from
min(MAX, effective(t1) + rate * (t2 - t1)) by strictly less than one ink
unit (and the counterexample above shows the difference can be nonzero, so
exact equality does not hold). -/
theorem calculateCurrentInk_compose (u : FirebaseService.UserDoc)
    (t1 t2 : ℚ) (h : t1 ≤ t2) :
    |FirebaseService.calculateCurrentInk u (10000 / 3600) t2
        - min 250000 (FirebaseService.calculateCurrentInk u (10000 / 3600) t1
            + (10000 / 3600) * ((t2 - t1) / 1000))| < 1
    ∧ min 250000 (FirebaseService.calculateCurrentInk u (10000 / 3600) t1
          + (10000 / 3600) * ((t1 - t1) / 1000))
        = FirebaseService.calculateCurrentInk u (10000 / 3600) t1 := by
  constructor
  · simp only [FirebaseService.calculateCurrentInk]
    set s := u.inkRemaining with hs
    set x := (t1 - u.lastRefill) / 1000 * (10000 / 3600) with hx
    set y := (10000 / 3600 : ℚ) * ((t2 - t1) / 1000) with hy
    have hy0 : 0 ≤ y := by
      rw [hy]
      have : (0 : ℚ) ≤ (t2 - t1) / 1000 := by
        apply div_nonneg (by linarith) (by norm_num)
      positivity
    have harg : (t2 - u.lastRefill) / 1000 * (10000 / 3600) = x + y := by
      rw [hx, hy]
      ring
    rw [harg, min_min_add _ _ _ hy0]
    have hlip := abs_min_sub_min_le 250000 (s + ⌊x + y⌋) (s + ⌊x⌋ + y)
    apply lt_of_le_of_lt hlip
    have f1 : ((⌊x + y⌋ : ℤ) : ℚ) ≤ x + y := Int.floor_le _
    have f2 : x + y < ⌊x + y⌋ + 1 := Int.lt_floor_add_one _
    have f3 : ((⌊x⌋ : ℤ) : ℚ) ≤ x := Int.floor_le _
    have f4 : x < ⌊x⌋ + 1 := Int.lt_floor_add_one _
    rw [abs_lt]
    constructor <;> push_cast <;> linarith
  · have hz : (10000 / 3600 : ℚ) * ((t1 - t1) / 1000) = 0 := by
      simp
    rw [hz, add_zero]
    exact min_eq_right (min_le_left _ _)

/-- Witness for C2 at the account (0, 0), t1 = 300, t2 = 600. -/
theorem calculateCurrentInk_compose_witness :
    (300 : ℚ) ≤ 600
    ∧ |FirebaseService.calculateCurrentInk ⟨0, 0, 0⟩ (10000 / 3600) 600
        - min 250000 (FirebaseService.calculateCurrentInk ⟨0, 0, 0⟩
            (10000 / 3600) 300 + (10000 / 3600) * ((600 - 300) / 1000))| < 1 :=
  ⟨by norm_num,
   (calculateCurrentInk_compose ⟨0, 0, 0⟩ 300 600 (by norm_num)).1⟩

/-- C4 as written is falsified by the code: saveStrokes debits the raw
stored inkRemaining rather than the lazily-refilled effective value, and
updateUserRefillTime then resets the baseline. At an account with stored ink
0 and lastRefill 0, flushing a total of 0 at t = 3600000 ms (one hour, so
the effective ink is 10000) persists 0, not the effective value minus the
total. -/
theorem flushCommit_counterexample :
    (FirebaseService.flushCommit ⟨0, 0, 0⟩ 0 3600000).inkRemaining
        ≠ FirebaseService.calculateCurrentInk ⟨0, 0, 0⟩ (10000 / 3600) 3600000
            - 0
    ∧ (FirebaseService.flushCommit ⟨0, 0, 0⟩ 0 3600000).lastRefill
        = 3600000 := by
  constructor
  · have e1 : ((3600000 : ℚ) - 0) / 1000 * (10000 / 3600) = 10000 := by
      norm_num
    have hf1 : ⌊(10000 : ℚ)⌋ = 10000 := by
      rw [Int.floor_eq_iff] <;> norm_num
    simp only [FirebaseService.calculateCurrentInk, FirebaseService.flushCommit,
      FirebaseService.updateUserRefillTime, FirebaseService.saveStrokesUserUpdate]
    rw [e1, hf1]
    norm_num
  · rfl

/-- C4 amended: on every successful flush the ledger commit persists the raw
stored inkRemaining minus the flushed total — without crediting the refill
accrued since the previous lastRefill — and resets lastRefill to the flush
time; consequently the effective ink immediately after the commit is
min(MAX, storedInk - total), so refill accrued before the write is
discarded rather than carried over. -/
theorem flushCommit_spec (u : FirebaseService.UserDoc) (total now : ℚ) :
    (FirebaseService.flushCommit u total now).inkRemaining
        = u.inkRemaining - total
    ∧ (FirebaseService.flushCommit u total now).lastRefill = now
    ∧ FirebaseService.calculateCurrentInk
        (FirebaseService.flushCommit u total now) (10000 / 3600) now
        = min 250000 (u.inkRemaining - total) := by
  refine ⟨rfl, rfl, ?_⟩
  simp only [FirebaseService.calculateCurrentInk, FirebaseService.flushCommit,
    FirebaseService.updateUserRefillTime, FirebaseService.saveStrokesUserUpdate]
  norm_num

/-- C7: for every world point (x, y), the bounds recomputed purely from the
string id getTileId(x, y) (tile size 2000) are exactly the bounds of tile
(⌊x/2000⌋, ⌊y/2000⌋) and contain the point; conversely, any tile whose
bounds contain the point has exactly those grid coordinates, i.e. the id
getTileId(x, y). Containment is inclusive at min and exclusive at max, the
notion under which the floor tiling partitions the plane. -/
theorem tileId_tileBounds_mutual_inverse (x y : ℚ) :
    FirebaseService.getTileBounds (FirebaseService.getTileId x y 2000)
        = some (FirebaseService.boundsOfTile ⌊x / 2000⌋ ⌊y / 2000⌋)
    ∧ FirebaseService.containsPoint
        (FirebaseService.boundsOfTile ⌊x / 2000⌋ ⌊y / 2000⌋) x y
    ∧ ∀ tx ty : ℤ,
        FirebaseService.containsPoint (FirebaseService.boundsOfTile tx ty) x y
          → tx = ⌊x / 2000⌋ ∧ ty = ⌊y / 2000⌋ := by
  refine ⟨?_, ?_, ?_⟩
  · unfold FirebaseService.getTileBounds
    rw [FirebaseService.parseTileId_getTileId]
  · unfold FirebaseService.containsPoint FirebaseService.boundsOfTile
    refine ⟨?_, ?_, ?_, ?_⟩
    · exact (le_div_iff₀ (by norm_num)).mp (Int.floor_le (x / 2000))
    · exact (div_lt_iff₀ (by norm_num)).mp (Int.lt_floor_add_one (x / 2000))
    · exact (le_div_iff₀ (by norm_num)).mp (Int.floor_le (y / 2000))
    · exact (div_lt_iff₀ (by norm_num)).mp (Int.lt_floor_add_one (y / 2000))
  · intro tx ty hc
    unfold FirebaseService.containsPoint FirebaseService.boundsOfTile at hc
    obtain ⟨h1, h2, h3, h4⟩ := hc
    exact ⟨(FirebaseService.floor_div_eq_of_bounds h1 h2).symm,
           (FirebaseService.floor_div_eq_of_bounds h3 h4).symm⟩

/-- Witness for C7 at the point (100, 300): tile (0, 0) contains it and is
the unique such tile. -/
theorem tileId_tileBounds_mutual_inverse_witness :
    FirebaseService.containsPoint (FirebaseService.boundsOfTile 0 0) 100 300
    ∧ ((0 : ℤ) = ⌊(100 : ℚ) / 2000⌋ ∧ (0 : ℤ) = ⌊(300 : ℚ) / 2000⌋) := by
  have hc : FirebaseService.containsPoint
      (FirebaseService.boundsOfTile 0 0) 100 300 := by
    unfold FirebaseService.containsPoint FirebaseService.boundsOfTile
    norm_num
  exact ⟨hc, (tileId_tileBounds_mutual_inverse 100 300).2.2 0 0 hc⟩

/-- C3 as written is falsified by the code: handleMouseDown performs no ink
check of any kind, so with the brush tool and an account whose effective ink
is 0 (≤ 0), mousedown still starts a stroke — the start is not refused and a
stroke object is created. -/
theorem strokeStart_at_zero_ink_counterexample :
    FirebaseService.calculateCurrentInk ⟨0, 0, 0⟩ (10000 / 3600) 0 ≤ 0
    ∧ (MainApp.handleMouseDown Samples.appIdle false 0 0 0 0 0).cm.isDrawing
        = true
    ∧ ((MainApp.handleMouseDown Samples.appIdle false 0 0 0
        0 0).cm.currentStroke).isSome = true := by
  refine ⟨?_, rfl, rfl⟩
  simp only [FirebaseService.calculateCurrentInk]
  norm_num

/-- C3 amended: the client never gates the start of a stroke on the ink
balance — with the brush or eraser tool, mousedown starts a stroke whatever
the account state (in particular an eraser stroke always starts); moving
with the eraser tool never deducts ink (zero cost); and while a stroke is in
progress, mousemove always continues it via continueStroke regardless of the
balance, so a stroke may continue at or below 0 ink. -/
theorem strokeStart_never_gated :
    (∀ (st : MainApp.AppState) (cx cy sx sy now : ℚ),
      st.currentTool = MainApp.Tool.brush ∨ st.currentTool = MainApp.Tool.eraser →
        (MainApp.handleMouseDown st false cx cy sx sy now).cm.isDrawing = true
        ∧ ((MainApp.handleMouseDown st false cx cy sx sy
            now).cm.currentStroke).isSome = true)
    ∧ (∀ (sqrtFn : ℚ → ℚ) (st : MainApp.AppState) (cx cy sx sy : ℚ),
      st.currentTool = MainApp.Tool.eraser →
        (MainApp.handleMouseMove sqrtFn st cx cy sx sy).userInk = st.userInk)
    ∧ (∀ (sqrtFn : ℚ → ℚ) (st : MainApp.AppState) (cx cy sx sy : ℚ),
      st.isPanning = false → st.cm.isDrawing = true →
        (MainApp.handleMouseMove sqrtFn st cx cy sx sy).cm
          = (CanvasManagerV2.continueStroke sqrtFn st.cm
              (CanvasManager.screenToWorld st.cm.viewport sx sy).1
              (CanvasManager.screenToWorld st.cm.viewport sx sy).2
              st.currentWidth).2) := by
  refine ⟨?_, ?_, ?_⟩
  · intro st cx cy sx sy now h
    unfold MainApp.handleMouseDown
    rw [if_neg (by simp)]
    rw [if_pos h]
    exact ⟨rfl, rfl⟩
  · intro sqrtFn st cx cy sx sy h
    simp only [MainApp.handleMouseMove]
    split_ifs with hp hd hne
    · rfl
    · exact absurd h hne
    · rfl
    · rfl
  · intro sqrtFn st cx cy sx sy hpan hdr
    simp only [MainApp.handleMouseMove, hpan, hdr]
    norm_num
    split_ifs with hne <;>
      first
        | rfl
        | (cases hui : st.userInk <;> rfl)

/-- Witness for C3 amended: with the eraser tool at a drained account the
stroke still starts, and an eraser mousemove leaves the account untouched. -/
theorem strokeStart_never_gated_witness :
    (Samples.appErasing.currentTool = MainApp.Tool.brush
      ∨ Samples.appErasing.currentTool = MainApp.Tool.eraser)
    ∧ (MainApp.handleMouseDown Samples.appErasing false 0 0 0 0 0).cm.isDrawing
        = true
    ∧ (MainApp.handleMouseMove (fun q => q) Samples.appErasing 0 0 0 0).userInk
        = Samples.appErasing.userInk :=
  ⟨Or.inr rfl,
   (strokeStart_never_gated.1 Samples.appErasing 0 0 0 0 0 (Or.inr rfl)).1,
   strokeStart_never_gated.2.1 (fun q => q) Samples.appErasing 0 0 0 0 rfl⟩

/-- C6: on every flush attempt whose remote save reports failure the local
stroke buffer is left exactly as it was (available for retry on the next
scheduled flush), and the buffer changes only by being cleared after a save
that reported success. -/
theorem flushFailure_keeps_buffer (cfg : Bool) (st : MainApp.AppState)
    (save : Bool) :
    (save = false →
      ((MainApp.flushStrokes cfg st save).1).cm.localStrokes
        = st.cm.localStrokes)
    ∧ (((MainApp.flushStrokes cfg st save).1).cm.localStrokes
        ≠ st.cm.localStrokes →
      save = true
        ∧ ((MainApp.flushStrokes cfg st save).1).cm.localStrokes = []) := by
  have master :
      ((MainApp.flushStrokes cfg st save).1).cm.localStrokes
          = st.cm.localStrokes
      ∨ (save = true
          ∧ ((MainApp.flushStrokes cfg st save).1).cm.localStrokes = []) := by
    by_cases hcfg : cfg = true
    · by_cases hdraw : st.cm.isDrawing = true
      · cases hcur : st.cm.currentStroke with
        | some s =>
            left
            cases save <;> simp [MainApp.flushStrokes, hcfg, hdraw, hcur]
        | none =>
            by_cases hb : st.cm.localStrokes = []
            · left
              simp [MainApp.flushStrokes, hcfg, hdraw, hcur, hb]
            · cases save with
              | false =>
                  left
                  simp [MainApp.flushStrokes, MainApp.flushNormal, hcfg,
                    hdraw, hcur, hb]
              | true =>
                  right
                  refine ⟨rfl, ?_⟩
                  simp [MainApp.flushStrokes, MainApp.flushNormal, hcfg,
                    hdraw, hcur, hb]
      · by_cases hb : st.cm.localStrokes = []
        · left
          simp [MainApp.flushStrokes, hcfg, hdraw, hb]
        · cases save with
          | false =>
              left
              simp [MainApp.flushStrokes, MainApp.flushNormal, hcfg, hdraw, hb]
          | true =>
              right
              refine ⟨rfl, ?_⟩
              simp [MainApp.flushStrokes, MainApp.flushNormal, hcfg, hdraw, hb]
    · left
      simp [MainApp.flushStrokes, hcfg]
  constructor
  · intro hs
    rcases master with hm | hm
    · exact hm
    · rw [hs] at hm
      exact absurd hm.1 (by simp)
  · intro hneq
    rcases master with hm | hm
    · exact absurd hm hneq
    · exact hm

/-- Witness for C6: a failing flush of a nonempty buffer leaves it
unchanged. -/
theorem flushFailure_keeps_buffer_witness :
    false = false
    ∧ ((MainApp.flushStrokes true Samples.appIdle false).1).cm.localStrokes
        = Samples.appIdle.cm.localStrokes :=
  ⟨rfl, (flushFailure_keeps_buffer true Samples.appIdle false).1 rfl⟩

/-- C1: a freehand stroke flushed mid-draw is persisted once and not
re-enqueued at endStroke, while a stroke never flushed mid-draw is enqueued
exactly once. Concretely: a successful mid-draw flush leaves the canvas
state (buffer included) untouched and sets the currentStrokeWasFlushed flag;
endStroke under that flag leaves the buffer unchanged; endStroke with the
flag clear appends the stroke exactly once (its multiplicity in the buffer
rises by exactly one); and endStroke always resets the flag for the next
stroke. -/
theorem midDraw_flush_no_duplicate (st : MainApp.AppState)
    (s : CanvasManagerV2.Stroke) (hdraw : st.cm.isDrawing = true)
    (hcur : st.cm.currentStroke = some s) (hlen : 3 < s.points.length) :
    ((MainApp.flushStrokes true st true).1).currentStrokeWasFlushed = true
    ∧ ((MainApp.flushStrokes true st true).1).cm = st.cm
    ∧ (CanvasManagerV2.endStroke ((MainApp.flushStrokes true st true).1).cm
        ((MainApp.flushStrokes true st true).1).currentStrokeWasFlushed).1.localStrokes
        = st.cm.localStrokes
    ∧ ((CanvasManagerV2.endStroke st.cm false).1.localStrokes
        = st.cm.localStrokes ++ [s]
      ∧ (CanvasManagerV2.endStroke st.cm false).1.localStrokes.count s
        = st.cm.localStrokes.count s + 1)
    ∧ (CanvasManagerV2.endStroke st.cm st.currentStrokeWasFlushed).2
        = false := by
  have hres : (MainApp.flushStrokes true st true).1
      = { st with currentStrokeWasFlushed := true } := by
    simp [MainApp.flushStrokes, hdraw, hcur]
  refine ⟨by rw [hres], by rw [hres], ?_, ⟨?_, ?_⟩, rfl⟩
  · rw [hres]
    simp only [CanvasManagerV2.endStroke, hcur]
    rw [if_pos hlen]
    simp
  · simp only [CanvasManagerV2.endStroke, hcur]
    rw [if_pos hlen]
    simp
  · simp only [CanvasManagerV2.endStroke, hcur]
    rw [if_pos hlen]
    simp [List.count_append]

/-- Witness for C1 on a concrete two-sample in-progress stroke. -/
theorem midDraw_flush_no_duplicate_witness :
    (Samples.appDrawing.cm.isDrawing = true
      ∧ Samples.appDrawing.cm.currentStroke = some Samples.strokeFlat
      ∧ 3 < Samples.strokeFlat.points.length)
    ∧ ((MainApp.flushStrokes true Samples.appDrawing
        true).1).currentStrokeWasFlushed = true :=
  ⟨⟨rfl, rfl, by decide⟩,
   (midDraw_flush_no_duplicate Samples.appDrawing Samples.strokeFlat rfl rfl
      (by decide)).1⟩
